import Mathlib

/-!
Verification of the hybrid-authentication and session-store components of the
aws-coding-agent repository, as a shallow embedding in Lean 4.

Embedded source files:
- src/chat/session.py  (SessionManager: add_message, get_messages, clear_session)
- src/tools/github_tools_hybrid.py  (github_auth_hybrid decorator)
- src/auth/github_auth.py  (GitHubAuth: _on_auth_url, get_token)
- src/chat/stream_handler.py  (stream_agent_response)

Conventions: Python dictionaries become association lists keyed by String;
Python None becomes Option.none; a Python function that can raise becomes a
function into Except String; Python truthiness of an optional string (None and
the empty string are falsy, which also matches pydantic SecretStr, whose
truthiness goes through its length) is made explicit as strTruthy.
-/

set_option autoImplicit false

namespace AwsCodingAgent

/-! ## Data model: ChatMessage (src/models/chat.py)

The datetime timestamp is abstracted as a Nat and the metadata dict as an
opaque optional string; neither field is ever consulted by the session store.
-/

structure ChatMessage where
  message : String
  session_id : String
  user_id : Option String
  timestamp : Nat
  metadata : Option String
deriving DecidableEq, Repr

/-! ## Session store (src/chat/session.py)

SessionManager holds `self._sessions: dict[str, list[ChatMessage]]`, embedded
as an association list from session id to message list. The Python dict holds
at most one binding per key; the embedding operations read the first binding
for a key and remove every binding for a key, which agree on such states.
-/

abbrev Sessions : Type := List (String × List ChatMessage)

/-- First binding for a key, as Python dict lookup: `self._sessions.get(session_id)`. -/
def getMsgs : Sessions → String → Option (List ChatMessage)
  | [], _ => none
  | (k, v) :: rest, sid => if k = sid then some v else getMsgs rest sid

/-- Replace the binding for a key, or add it at the end when absent
(Python `self._sessions[session_id] = ...`). -/
def setEntry : Sessions → String → List ChatMessage → Sessions
  | [], sid, v => [(sid, v)]
  | (k, w) :: rest, sid, v =>
    if k = sid then (sid, v) :: rest else (k, w) :: setEntry rest sid v

/-- `SessionManager.add_message`: create the list on first use, then append. -/
def add_message (st : Sessions) (m : ChatMessage) : Sessions :=
  setEntry st m.session_id (((getMsgs st m.session_id).getD []) ++ [m])

/-- Last `k` elements of a list, as the Python slice `l[-k:]` for `k > 0`. -/
def takeLast (k : Nat) (l : List ChatMessage) : List ChatMessage :=
  l.drop (l.length - k)

/-- `SessionManager.get_messages`. The limit argument is `int | None` in the
source and is modelled over the naturals the claims quantify over; the Python
guard is `if limit:`, under which `limit = 0` is falsy and takes the no-limit
branch. -/
def get_messages (st : Sessions) (sid : String) (limit : Option Nat) : List ChatMessage :=
  let messages := (getMsgs st sid).getD []
  match limit with
  | some k => if k ≠ 0 then takeLast k messages else messages
  | none => messages

/-- `SessionManager.clear_session`: `del self._sessions[session_id]` guarded by
a membership test; removes every binding for the key. -/
def clear_session : Sessions → String → Sessions
  | [], _ => []
  | (k, v) :: rest, sid =>
    if k = sid then clear_session rest sid else (k, v) :: clear_session rest sid

/-! ### Session store lemmas -/

theorem getMsgs_setEntry_self (st : Sessions) (sid : String) (v : List ChatMessage) :
    getMsgs (setEntry st sid v) sid = some v := by
  induction st with
  | nil => simp [setEntry, getMsgs]
  | cons p rest ih =>
    obtain ⟨k, w⟩ := p
    by_cases h : k = sid
    · simp [setEntry, h, getMsgs]
    · simp [setEntry, h, getMsgs, ih]

theorem getMsgs_setEntry_of_ne (st : Sessions) (sid sid₂ : String) (v : List ChatMessage)
    (h : sid₂ ≠ sid) : getMsgs (setEntry st sid v) sid₂ = getMsgs st sid₂ := by
  induction st with
  | nil => simp [setEntry, getMsgs, Ne.symm h]
  | cons p rest ih =>
    obtain ⟨k, w⟩ := p
    by_cases hk : k = sid
    · subst hk
      simp [setEntry, getMsgs, Ne.symm h]
    · simp [setEntry, hk, getMsgs, ih]

theorem getMsgs_add_message (st : Sessions) (m : ChatMessage) (sid : String) :
    getMsgs (add_message st m) sid =
      if m.session_id = sid
      then some (((getMsgs st sid).getD []) ++ [m])
      else getMsgs st sid := by
  by_cases h : m.session_id = sid
  · subst h
    simp [add_message, getMsgs_setEntry_self]
  · simp [add_message, h, getMsgs_setEntry_of_ne st m.session_id sid _ (fun hh => h hh.symm)]

/-- Appending a batch of messages extends each session by exactly the batch
members addressed to it, in call order. -/
theorem getMsgs_foldl_add_message (ms : List ChatMessage) (st : Sessions) (sid : String) :
    ((getMsgs (ms.foldl add_message st) sid).getD []) =
      ((getMsgs st sid).getD []) ++ ms.filter (fun m => m.session_id = sid) := by
  induction ms generalizing st with
  | nil => simp
  | cons m rest ih =>
    rw [List.foldl_cons, ih]
    by_cases h : m.session_id = sid
    · simp [List.filter_cons, h, getMsgs_add_message, List.append_assoc]
    · simp [List.filter_cons, h, getMsgs_add_message]

theorem getMsgs_clear_session (st : Sessions) (sid : String) :
    getMsgs (clear_session st sid) sid = none := by
  induction st with
  | nil => simp [clear_session, getMsgs]
  | cons p rest ih =>
    obtain ⟨k, v⟩ := p
    by_cases h : k = sid <;> simp [clear_session, h, getMsgs, ih]

theorem clear_session_absent (st : Sessions) (sid : String)
    (h : getMsgs st sid = none) : clear_session st sid = st := by
  induction st with
  | nil => rfl
  | cons p rest ih =>
    obtain ⟨k, v⟩ := p
    by_cases hk : k = sid
    · simp [getMsgs, hk] at h
    · simp [getMsgs, hk] at h
      simp [clear_session, hk, ih h]

/-! ## Hybrid capability dispatch (src/tools/github_tools_hybrid.py)

The decorator `github_auth_hybrid` wraps each GitHub-backed operation. Its
wrapper reads `settings.github_token` (a `SecretStr | None`), so the guard
`if settings.github_token:` is true exactly when a token is configured and
non-empty (SecretStr truthiness goes through its length); the second guard
`elif access_token:` is Python string truthiness. A raise of ValueError is
embedded as Except.error carrying the message.
-/

/-- Python truthiness of an optional string: None and the empty string are
falsy. Also models the truthiness of an optional pydantic SecretStr. -/
def strTruthy : Option String → Bool
  | none => false
  | some s => !s.isEmpty

/-- The slice of Settings (src/config.py) the dispatch wrapper consults. -/
structure Settings where
  github_token : Option String
deriving DecidableEq, Repr

/-- The exact ValueError message raised when neither token source is set. -/
def noGithubAuthMsg : String :=
  "No GitHub authentication available. Either set GITHUB_TOKEN in .env or use OAuth flow."

/-- Token selection performed by the wrapper in `github_auth_hybrid`:
static token from settings first, else the caller-supplied OAuth token,
else a ValueError. -/
def resolveHybridToken (settings : Settings) (access_token : Option String) :
    Except String String :=
  if strTruthy settings.github_token then
    .ok (settings.github_token.getD "")
  else if strTruthy access_token then
    .ok (access_token.getD "")
  else
    .error noGithubAuthMsg

/-- The wrapped call: `return await func(*args, access_token=token, **kwargs)`.
The wrapped operation is abstracted as a function of the token it receives;
when resolution fails the operation is not applied. -/
def github_auth_hybrid {α : Type} (func : String → α) (settings : Settings)
    (access_token : Option String) : Except String α :=
  (resolveHybridToken settings access_token).map func

/-! ## GitHub OAuth resolver (src/auth/github_auth.py)

GitHubAuth holds `self._token` and `self._pending_oauth_url`. The optional
`self._oauth_url_callback` is modelled as an optional function that may raise
(Except.error). The AgentCore identity provider behind @requires_access_token
is an oracle: on one invocation it either hands a token back directly, or
first signals an authorization URL through on_auth_url and then hands a token
back, or signals the URL and then raises (authorization pending), or raises
outright.
-/

structure AuthState where
  token : Option String
  pending_oauth_url : Option String
deriving DecidableEq, Repr

/-- One possible behaviour of the identity provider during a single
@requires_access_token invocation. -/
inductive ProviderOutcome where
  | direct (tok : String)
  | viaAuth (url : String) (tok : String)
  | authPending (url : String) (err : String)
  | failure (err : String)
deriving DecidableEq, Repr

/-- The OAuth URL notifier: present or absent, and free to raise. -/
abbrev UrlCallback : Type := Option (String → Except String Unit)

/-- `GitHubAuth._on_auth_url`: records the pending URL first, then invokes the
notifier inside try/except (any exception is logged and swallowed). Returns
the new state and how many notifier invocations happened; the Except layer
records that the method itself could raise, which it never does. -/
def on_auth_url (st : AuthState) (cb : UrlCallback) (url : String) :
    Except String (AuthState × Nat) :=
  let st₁ : AuthState := { st with pending_oauth_url := some url }
  match cb with
  | none => .ok (st₁, 0)
  | some f =>
    match f url with
    | .ok _ => .ok (st₁, 1)
    | .error _ => .ok (st₁, 1)

deriving instance DecidableEq for Except

/-- Everything observable about one `GitHubAuth.get_token` call: the state of
the instance afterwards, the returned token or raised message, whether the
identity provider was invoked, and how many notifier invocations happened. -/
structure GetTokenRun where
  state : AuthState
  result : Except String String
  provider_invoked : Bool
  notifier_calls : Nat
deriving DecidableEq, Repr

/-- `GitHubAuth.get_token`: the guard is `if not self._token:` (None and the
empty string are falsy). On the provider path the inner `_get_token` stores
the received token in `self._token`; any exception is re-raised as
`ValueError("GitHub authentication failed: ...")`; finally the method returns
`self._token`. -/
def get_token (st : AuthState) (cb : UrlCallback) (provider : ProviderOutcome) :
    GetTokenRun :=
  if strTruthy st.token then
    { state := st, result := .ok (st.token.getD ""),
      provider_invoked := false, notifier_calls := 0 }
  else
    match provider with
    | .direct tok =>
      { state := { st with token := some tok }, result := .ok tok,
        provider_invoked := true, notifier_calls := 0 }
    | .viaAuth url tok =>
      match on_auth_url st cb url with
      | .ok (st₁, n) =>
        { state := { st₁ with token := some tok }, result := .ok tok,
          provider_invoked := true, notifier_calls := n }
      | .error e =>
        { state := { st with pending_oauth_url := some url },
          result := .error ("GitHub authentication failed: " ++ e),
          provider_invoked := true, notifier_calls := 0 }
    | .authPending url err =>
      match on_auth_url st cb url with
      | .ok (st₁, n) =>
        { state := st₁,
          result := .error ("GitHub authentication failed: " ++ err),
          provider_invoked := true, notifier_calls := n }
      | .error e =>
        { state := { st with pending_oauth_url := some url },
          result := .error ("GitHub authentication failed: " ++ e),
          provider_invoked := true, notifier_calls := 0 }
    | .failure err =>
      { state := st, result := .error ("GitHub authentication failed: " ++ err),
        provider_invoked := true, notifier_calls := 0 }

/-! ## Chat stream handler (src/chat/stream_handler.py)

`stream_agent_response` iterates the agent event stream inside try/except.
A list of stream items models one run of the underlying iterator: each item
is either an event the iterator yielded, or the point at which the iterator
raised. Events that are not dictionaries, or dictionaries with none of the
three recognised keys, are skipped. The yielded SSE frames are modelled by
their typed payloads.
-/

inductive StreamEvent where
  | nonDict
  | data (content : String)
  | toolUse (name input : Option String)
  | error (msg : String)
  | other
deriving DecidableEq, Repr

inductive StreamItem where
  | ev (e : StreamEvent)
  | raised (msg : String)
deriving DecidableEq, Repr

inductive Frame where
  | token (content : String)
  | toolUse (name input : Option String)
  | error (msg : String)
  | done
deriving DecidableEq, Repr

/-- `stream_agent_response` as a function from one run of the agent iterator
to the list of yielded frames. An error event yields an error frame and
breaks out of the loop, after which the trailing done frame is still yielded;
an exception yields an error frame and ends the stream; an exhausted iterator
yields the trailing done frame. -/
def stream_agent_response : List StreamItem → List Frame
  | [] => [Frame.done]
  | .raised m :: _ => [Frame.error m]
  | .ev e :: rest =>
    match e with
    | .nonDict => stream_agent_response rest
    | .other => stream_agent_response rest
    | .data s => Frame.token s :: stream_agent_response rest
    | .toolUse n i => Frame.toolUse n i :: stream_agent_response rest
    | .error m => [Frame.error m, Frame.done]

/-- The frames strictly after the first error frame, if any. -/
def framesAfterFirstError : List Frame → List Frame
  | [] => []
  | Frame.error _ :: rest => rest
  | _ :: rest => framesAfterFirstError rest

/-- Whether an item list contains an in-stream error event. -/
def containsErrorEvent (items : List StreamItem) : Bool :=
  items.any (fun it =>
    match it with
    | .ev (.error _) => true
    | _ => false)

/-- Whether the iterator ran to completion without raising. -/
def noRaise (items : List StreamItem) : Bool :=
  items.all (fun it =>
    match it with
    | .raised _ => false
    | _ => true)

/-- Whether a frame list holds only content frames (token or tool-use) — in
particular neither an error frame nor a done frame. -/
def contentFramesOnly (fs : List Frame) : Bool :=
  fs.all (fun fr =>
    match fr with
    | .token _ => true
    | .toolUse _ _ => true
    | _ => false)

/-! ## Helper lemmas shared by the auth claims -/

theorem strTruthy_some_of_ne (s : String) (hne : s ≠ "") :
    strTruthy (some s) = true := by
  have hem : s.isEmpty = false := by
    cases hem : s.isEmpty with
    | false => rfl
    | true => exact absurd ((String.isEmpty_iff s).mp hem) hne
  simp [strTruthy, hem]

/-- When the cached token field holds a non-empty string, `get_token` returns
it with no provider invocation, no notifier call, and no state change. -/
theorem get_token_of_token_truthy (st : AuthState) (cb : UrlCallback)
    (provider : ProviderOutcome) (s : String) (htok : st.token = some s)
    (hne : s ≠ "") :
    get_token st cb provider =
      { state := st, result := .ok s, provider_invoked := false,
        notifier_calls := 0 } := by
  simp [get_token, htok, strTruthy_some_of_ne s hne]

/-- A `get_token` call that returns a token leaves exactly that token cached. -/
theorem get_token_ok_token (st : AuthState) (cb : UrlCallback)
    (p : ProviderOutcome) (t : String)
    (h : (get_token st cb p).result = .ok t) :
    (get_token st cb p).state.token = some t := by
  by_cases htr : strTruthy st.token = true
  · obtain ⟨s, hs⟩ : ∃ s, st.token = some s := by
      cases hst : st.token with
      | none => rw [hst] at htr; simp [strTruthy] at htr
      | some s => exact ⟨s, rfl⟩
    rw [hs] at htr
    simp only [get_token, hs, htr, if_true] at h ⊢
    simp only [Option.getD_some, Except.ok.injEq] at h
    simp [h]
  · cases p with
    | direct tok =>
      simp [get_token, htr] at h ⊢
      simp [h]
    | viaAuth url tok =>
      cases cb with
      | none =>
        simp [get_token, htr, on_auth_url] at h ⊢
        simp [h]
      | some f =>
        cases hf : f url with
        | ok u =>
          simp [get_token, htr, on_auth_url, hf] at h ⊢
          simp [h]
        | error e =>
          simp [get_token, htr, on_auth_url, hf] at h ⊢
          simp [h]
    | authPending url err =>
      cases cb with
      | none => simp [get_token, htr, on_auth_url] at h
      | some f =>
        cases hf : f url with
        | ok u => simp [get_token, htr, on_auth_url, hf] at h
        | error e => simp [get_token, htr, on_auth_url, hf] at h
    | failure err => simp [get_token, htr] at h

end AwsCodingAgent

namespace AwsCodingAgent

/-! ## Claims about the session store -/

/-- C8: for every session id and every finite batch of messages appended via
`add_message` to a store in which the session is not yet present, reading with
no limit returns exactly the messages addressed to that session, in call
order, with no loss, duplication, or reordering — whatever their timestamp and
metadata fields hold (the batch may interleave appends to other sessions). -/
theorem C8_append_then_read_in_call_order (st : Sessions) (ms : List ChatMessage)
    (sid : String) (h : getMsgs st sid = none) :
    get_messages (ms.foldl add_message st) sid none =
      ms.filter (fun m => m.session_id = sid) := by
  simp [get_messages, getMsgs_foldl_add_message, h]

/-- Witness for C8 at a concrete two-message batch with distinct timestamps. -/
theorem C8_append_then_read_in_call_order_witness :
    get_messages
        (List.foldl add_message ([] : Sessions)
          [⟨"hello", "s1", none, 5, none⟩, ⟨"world", "s1", some "u1", 3, none⟩])
        "s1" none =
      List.filter (fun m => m.session_id = "s1")
        [⟨"hello", "s1", none, 5, none⟩, ⟨"world", "s1", some "u1", 3, none⟩] :=
  C8_append_then_read_in_call_order []
    [⟨"hello", "s1", none, 5, none⟩, ⟨"world", "s1", some "u1", 3, none⟩] "s1" rfl

/-- C9: operations on absent sessions are total and benign: reading an unknown
session id returns an empty list for every limit, clearing an absent session
leaves the store unchanged, and clearing any session followed by reading it
returns an empty list. (Totality in Lean models the never-raises part.) -/
theorem C9_absent_sessions_benign :
    (∀ (st : Sessions) (sid : String) (limit : Option Nat),
        getMsgs st sid = none → get_messages st sid limit = []) ∧
    (∀ (st : Sessions) (sid : String),
        getMsgs st sid = none → clear_session st sid = st) ∧
    (∀ (st : Sessions) (sid : String) (limit : Option Nat),
        get_messages (clear_session st sid) sid limit = []) := by
  refine ⟨?_, ?_, ?_⟩
  · intro st sid limit h
    cases limit with
    | none => simp [get_messages, h]
    | some k => simp [get_messages, h, takeLast]
  · exact clear_session_absent
  · intro st sid limit
    have h := getMsgs_clear_session st sid
    cases limit with
    | none => simp [get_messages, h]
    | some k => simp [get_messages, h, takeLast]

/-- Witness for C9 at concrete stores. -/
theorem C9_absent_sessions_benign_witness :
    get_messages ([("a", [⟨"m", "a", none, 0, none⟩])] : Sessions) "b" (some 3) = [] ∧
    clear_session ([("a", [⟨"m", "a", none, 0, none⟩])] : Sessions) "b" =
      [("a", [⟨"m", "a", none, 0, none⟩])] ∧
    get_messages (clear_session [("a", [⟨"m", "a", none, 0, none⟩])] "a") "a" none = [] :=
  ⟨C9_absent_sessions_benign.1 _ "b" (some 3) (by decide),
   C9_absent_sessions_benign.2.1 _ "b" (by decide),
   C9_absent_sessions_benign.2.2 _ "a" none⟩

/-- C2 as stated is false at `limit = 0`: the source guard is `if limit:`, so
a zero limit is falsy and the whole history is returned, not the last
`min(0, n) = 0` elements. Here one message was appended and `read` with
`limit = 0` returns a non-empty list. -/
theorem C2_counterexample :
    ¬ (get_messages (add_message [] ⟨"hello", "s1", none, 0, none⟩) "s1" (some 0) = []) := by
  decide

/-- C2 amended: for every POSITIVE limit `k`, reading with limit `k` returns
exactly the last `min(k, n)` of the `n` appended messages, in original
relative order (here as the suffix `ms.drop (ms.length - k)`, whose length is
`min k ms.length`). -/
theorem C2_limit_returns_suffix (st : Sessions) (ms : List ChatMessage)
    (sid : String) (k : Nat) (hk : 0 < k) (h : getMsgs st sid = none)
    (hall : ∀ m ∈ ms, m.session_id = sid) :
    get_messages (ms.foldl add_message st) sid (some k) =
        ms.drop (ms.length - k) ∧
      (ms.drop (ms.length - k)).length = min k ms.length := by
  have hfilter : ms.filter (fun m => m.session_id = sid) = ms :=
    List.filter_eq_self.mpr (by intro m hm; simpa using hall m hm)
  have hread : ((getMsgs (ms.foldl add_message st) sid).getD []) = ms := by
    rw [getMsgs_foldl_add_message, h, hfilter]
    simp
  constructor
  · simp [get_messages, hread, takeLast, Nat.pos_iff_ne_zero.mp hk]
  · rw [List.length_drop]
    omega

/-- Witness for C2 amended: three messages, limit 2. -/
theorem C2_limit_returns_suffix_witness :
    0 < 2 ∧
    (get_messages
        (List.foldl add_message ([] : Sessions)
          ([⟨"a", "s1", none, 1, none⟩, ⟨"b", "s1", none, 2, none⟩,
            ⟨"c", "s1", none, 3, none⟩] : List ChatMessage)) "s1" (some 2) =
      List.drop
        ((List.length ([⟨"a", "s1", none, 1, none⟩, ⟨"b", "s1", none, 2, none⟩,
            ⟨"c", "s1", none, 3, none⟩] : List ChatMessage)) - 2)
        ([⟨"a", "s1", none, 1, none⟩, ⟨"b", "s1", none, 2, none⟩,
            ⟨"c", "s1", none, 3, none⟩] : List ChatMessage) ∧
      (List.drop
        ((List.length ([⟨"a", "s1", none, 1, none⟩, ⟨"b", "s1", none, 2, none⟩,
            ⟨"c", "s1", none, 3, none⟩] : List ChatMessage)) - 2)
        ([⟨"a", "s1", none, 1, none⟩, ⟨"b", "s1", none, 2, none⟩,
            ⟨"c", "s1", none, 3, none⟩] : List ChatMessage)).length =
        min 2 (List.length ([⟨"a", "s1", none, 1, none⟩, ⟨"b", "s1", none, 2, none⟩,
            ⟨"c", "s1", none, 3, none⟩] : List ChatMessage))) :=
  ⟨by decide,
   C2_limit_returns_suffix [] _ "s1" 2 (by decide) rfl (by decide)⟩

/-! ## Claims about the hybrid capability dispatch -/

/-- C1: whenever a static GitHub token (a non-empty configured secret, which
is exactly what the source guard `if settings.github_token:` accepts) is
present, every wrapped operation is invoked with that static token, for every
caller-supplied access_token — including a non-null one, which is ignored. -/
theorem C1_static_token_dominates {α : Type} (func : String → α)
    (settings : Settings) (s : String) (htok : settings.github_token = some s)
    (hne : s ≠ "") (access_token : Option String) :
    github_auth_hybrid func settings access_token = .ok (func s) := by
  simp [github_auth_hybrid, resolveHybridToken, htok, strTruthy_some_of_ne s hne,
    Except.map]

/-- Witness for C1: static token configured and a non-null OAuth token
supplied; the operation sees the static token. -/
theorem C1_static_token_dominates_witness :
    github_auth_hybrid (fun tok => tok ++ "!") ⟨some "ghp_static"⟩
        (some "oauth_tok") =
      .ok ("ghp_static" ++ "!") :=
  C1_static_token_dominates (fun tok => tok ++ "!") ⟨some "ghp_static"⟩
    "ghp_static" rfl (by decide) (some "oauth_tok")

/-- C6: with no static token configured and no caller-supplied token, the
wrapper fails with the configuration error for every wrapped operation (over
every result type, so the operation is never invoked), and the message names
both remedies: setting GITHUB_TOKEN and using the OAuth flow. -/
theorem C6_no_auth_configuration_error :
    (∀ (α : Type) (func : String → α),
        github_auth_hybrid func ⟨none⟩ none = .error noGithubAuthMsg) ∧
    (∃ pre mid post : String,
        noGithubAuthMsg = pre ++ "set GITHUB_TOKEN" ++ mid ++ "OAuth flow" ++ post) := by
  constructor
  · intro α func
    rfl
  · exact ⟨"No GitHub authentication available. Either ", " in .env or use ", ".",
      by rfl⟩

/-! ## Claims about the OAuth token resolver -/

/-- C3: when a credential is already stored on the instance (the statically
injected case: GitHubAuth keeps a static startup credential and a received
OAuth credential in the same `_token` slot, and the guard `if not
self._token:` accepts any non-empty string), `get_token` returns it
immediately: no identity-provider invocation, no notifier call (so no
blocking on user interaction), and no state change. -/
theorem C3_static_credential_immediate (st : AuthState) (cb : UrlCallback)
    (provider : ProviderOutcome) (s : String) (htok : st.token = some s)
    (hne : s ≠ "") :
    get_token st cb provider =
      { state := st, result := .ok s, provider_invoked := false,
        notifier_calls := 0 } :=
  get_token_of_token_truthy st cb provider s htok hne

/-- Witness for C3: a statically injected credential is returned untouched
even when the provider would have failed. -/
theorem C3_static_credential_immediate_witness :
    get_token ⟨some "ghp_static", none⟩ none (ProviderOutcome.failure "unused") =
      { state := ⟨some "ghp_static", none⟩, result := .ok "ghp_static",
        provider_invoked := false, notifier_calls := 0 } :=
  C3_static_credential_immediate ⟨some "ghp_static", none⟩ none
    (ProviderOutcome.failure "unused") "ghp_static" rfl (by decide)

/-- C7: once a `get_token` call has obtained and cached a (non-empty) OAuth
token, every subsequent call — any notifier, any provider behaviour — returns
that same token unchanged, does not re-invoke the identity provider, and
performs no notifier call. -/
theorem C7_cached_token_stable (st₀ : AuthState) (cb₁ cb₂ : UrlCallback)
    (p₁ p₂ : ProviderOutcome) (t : String)
    (h : (get_token st₀ cb₁ p₁).result = .ok t) (hne : t ≠ "") :
    get_token (get_token st₀ cb₁ p₁).state cb₂ p₂ =
      { state := (get_token st₀ cb₁ p₁).state, result := .ok t,
        provider_invoked := false, notifier_calls := 0 } :=
  get_token_of_token_truthy _ cb₂ p₂ t (get_token_ok_token st₀ cb₁ p₁ t h) hne

/-- Witness for C7: a first call obtains a token from the provider; the
second call returns it with the provider left uninvoked. -/
theorem C7_cached_token_stable_witness :
    get_token (get_token ⟨none, none⟩ none (ProviderOutcome.direct "ghp_tok")).state
        none (ProviderOutcome.failure "would change the token") =
      { state := (get_token ⟨none, none⟩ none (ProviderOutcome.direct "ghp_tok")).state,
        result := .ok "ghp_tok", provider_invoked := false, notifier_calls := 0 } :=
  C7_cached_token_stable ⟨none, none⟩ none none (ProviderOutcome.direct "ghp_tok")
    (ProviderOutcome.failure "would change the token") "ghp_tok" rfl (by decide)

/-- C10: if the configured OAuth URL callback raises when invoked with the
authorization URL, `_on_auth_url` swallows the exception (the call still
returns normally), the pending URL is recorded on the instance anyway, and
the notifier invocation is counted — a failing notifier never aborts the
authorization flow. -/
theorem C10_callback_error_swallowed (st : AuthState)
    (f : String → Except String Unit) (url e : String)
    (hf : f url = .error e) :
    on_auth_url st (some f) url =
      .ok ({ st with pending_oauth_url := some url }, 1) := by
  simp [on_auth_url, hf]

/-- Witness for C10 with a callback that always raises. -/
theorem C10_callback_error_swallowed_witness :
    on_auth_url ⟨none, none⟩ (some (fun _ => .error "callback boom"))
        "https://github.test/authorize" =
      .ok (⟨none, some "https://github.test/authorize"⟩, 1) :=
  C10_callback_error_swallowed ⟨none, none⟩ (fun _ => .error "callback boom")
    "https://github.test/authorize" "callback boom" rfl

/-- C4 as stated is false: after the provider signals an authorization URL
and then hands a token back, the pending URL is still set — the code never
clears `_pending_oauth_url` when the token field becomes non-null. -/
theorem C4_counterexample :
    ¬ (((get_token ⟨none, none⟩ none
            (ProviderOutcome.viaAuth "https://auth.test" "ghp_tok")).state.token.isSome) →
        (get_token ⟨none, none⟩ none
            (ProviderOutcome.viaAuth "https://auth.test" "ghp_tok")).state.pending_oauth_url =
          none) := by
  decide

/-- C4 amended: the pending URL becomes non-null at each authorization-required
signal (whether the provider then hands a token back — viaAuth — or then fails
— authPending) and is never cleared afterwards, in particular it remains set
once a credential is obtained; exactly one notifier invocation occurs per
signal when a callback is configured, zero when none is configured, and zero
on every call with no signal (a direct token, a provider failure, or a cached
credential). -/
theorem C4_pending_url_persists :
    (∀ (st : AuthState) (cb : UrlCallback) (p : ProviderOutcome) (u : String),
        st.pending_oauth_url = some u →
        (get_token st cb p).state.pending_oauth_url ≠ none) ∧
    (∀ (st : AuthState) (f : String → Except String Unit) (url tok : String),
        strTruthy st.token = false →
        (get_token st (some f) (.viaAuth url tok)).state.pending_oauth_url = some url ∧
        (get_token st (some f) (.viaAuth url tok)).state.token = some tok ∧
        (get_token st (some f) (.viaAuth url tok)).notifier_calls = 1) ∧
    (∀ (st : AuthState) (url tok : String),
        strTruthy st.token = false →
        (get_token st none (.viaAuth url tok)).state.pending_oauth_url = some url ∧
        (get_token st none (.viaAuth url tok)).notifier_calls = 0) ∧
    (∀ (st : AuthState) (f : String → Except String Unit) (url err : String),
        strTruthy st.token = false →
        (get_token st (some f) (.authPending url err)).state.pending_oauth_url = some url ∧
        (get_token st (some f) (.authPending url err)).notifier_calls = 1) ∧
    (∀ (st : AuthState) (url err : String),
        strTruthy st.token = false →
        (get_token st none (.authPending url err)).state.pending_oauth_url = some url ∧
        (get_token st none (.authPending url err)).notifier_calls = 0) ∧
    (∀ (st : AuthState) (cb : UrlCallback) (tok : String),
        (get_token st cb (.direct tok)).notifier_calls = 0) ∧
    (∀ (st : AuthState) (cb : UrlCallback) (err : String),
        (get_token st cb (.failure err)).notifier_calls = 0) ∧
    (∀ (st : AuthState) (cb : UrlCallback) (p : ProviderOutcome) (s : String),
        st.token = some s → s ≠ "" →
        (get_token st cb p).notifier_calls = 0) := by
  refine ⟨?_, ?_, ?_, ?_, ?_, ?_, ?_, ?_⟩
  · intro st cb p u hu
    by_cases htr : strTruthy st.token = true
    · simp [get_token, htr, hu]
    · cases p with
      | direct tok => simp [get_token, htr, hu]
      | viaAuth url tok =>
        cases cb with
        | none => simp [get_token, htr, on_auth_url]
        | some f => cases hf : f url <;> simp [get_token, htr, on_auth_url, hf]
      | authPending url err =>
        cases cb with
        | none => simp [get_token, htr, on_auth_url]
        | some f => cases hf : f url <;> simp [get_token, htr, on_auth_url, hf]
      | failure err => simp [get_token, htr, hu]
  · intro st f url tok htr
    cases hf : f url <;>
      simp [get_token, htr, on_auth_url, hf]
  · intro st url tok htr
    simp [get_token, htr, on_auth_url]
  · intro st f url err htr
    cases hf : f url <;>
      simp [get_token, htr, on_auth_url, hf]
  · intro st url err htr
    simp [get_token, htr, on_auth_url]
  · intro st cb tok
    by_cases htr : strTruthy st.token = true <;> simp [get_token, htr]
  · intro st cb err
    by_cases htr : strTruthy st.token = true <;> simp [get_token, htr]
  · intro st cb p s htok hne
    rw [get_token_of_token_truthy st cb p s htok hne]

/-- Witness for C4 amended at concrete states, callbacks and outcomes,
covering both signal outcomes with and without a callback, both non-signal
outcomes, and the cached-credential case. -/
theorem C4_pending_url_persists_witness :
    (get_token ⟨some "tok", some "https://u"⟩ none (ProviderOutcome.direct "x")).state.pending_oauth_url ≠
      none ∧
    ((get_token ⟨none, none⟩ (some (fun _ => .ok ()))
        (.viaAuth "https://u2" "t2")).state.pending_oauth_url = some "https://u2" ∧
      (get_token ⟨none, none⟩ (some (fun _ => .ok ()))
        (.viaAuth "https://u2" "t2")).state.token = some "t2" ∧
      (get_token ⟨none, none⟩ (some (fun _ => .ok ()))
        (.viaAuth "https://u2" "t2")).notifier_calls = 1) ∧
    ((get_token ⟨none, none⟩ none (.viaAuth "https://u3" "t3")).state.pending_oauth_url =
        some "https://u3" ∧
      (get_token ⟨none, none⟩ none (.viaAuth "https://u3" "t3")).notifier_calls = 0) ∧
    ((get_token ⟨none, none⟩ (some (fun _ => .error "cb boom"))
        (.authPending "https://u5" "denied")).state.pending_oauth_url = some "https://u5" ∧
      (get_token ⟨none, none⟩ (some (fun _ => .error "cb boom"))
        (.authPending "https://u5" "denied")).notifier_calls = 1) ∧
    ((get_token ⟨none, none⟩ none (.authPending "https://u6" "denied")).state.pending_oauth_url =
        some "https://u6" ∧
      (get_token ⟨none, none⟩ none (.authPending "https://u6" "denied")).notifier_calls = 0) ∧
    (get_token ⟨none, none⟩ none (.direct "t4")).notifier_calls = 0 ∧
    (get_token ⟨none, none⟩ none (.failure "boom")).notifier_calls = 0 ∧
    (get_token ⟨some "ghp_cached", none⟩ none (.viaAuth "https://u7" "t7")).notifier_calls = 0 :=
  ⟨C4_pending_url_persists.1 ⟨some "tok", some "https://u"⟩ none
      (ProviderOutcome.direct "x") "https://u" rfl,
   C4_pending_url_persists.2.1 ⟨none, none⟩ (fun _ => .ok ()) "https://u2" "t2" rfl,
   C4_pending_url_persists.2.2.1 ⟨none, none⟩ "https://u3" "t3" rfl,
   C4_pending_url_persists.2.2.2.1 ⟨none, none⟩ (fun _ => .error "cb boom")
     "https://u5" "denied" rfl,
   C4_pending_url_persists.2.2.2.2.1 ⟨none, none⟩ "https://u6" "denied" rfl,
   C4_pending_url_persists.2.2.2.2.2.1 ⟨none, none⟩ none "t4",
   C4_pending_url_persists.2.2.2.2.2.2.1 ⟨none, none⟩ none "boom",
   C4_pending_url_persists.2.2.2.2.2.2.2 ⟨some "ghp_cached", none⟩ none
     (.viaAuth "https://u7" "t7") "ghp_cached" rfl (by decide)⟩

/-! ## Claims about the chat stream handler -/

/-- C5 as stated is false: an error frame produced from an in-stream error
event does not terminate the stream — the loop is exited with break, and the
trailing done frame is still yielded. On the one-event run holding only an
error event, the frames after the error frame are non-empty. -/
theorem C5_counterexample :
    containsErrorEvent [StreamItem.ev (StreamEvent.error "boom")] = true ∧
    framesAfterFirstError
        (stream_agent_response [StreamItem.ev (StreamEvent.error "boom")]) ≠ [] := by
  decide

/-- C5 amended: (first part) after the first error frame at most one frame
follows, and it can only be the single trailing done frame; on every run that
completes without raising and contains an error event, exactly the done frame
follows the error frame. (Second part) an error frame produced by a raised
exception is the final frame of the stream: when the iterator yields some
events, none of them an error event, and then raises, the whole output is a
list of content frames (token and tool-use only — so no done frame and no
earlier error frame anywhere) followed by that single terminal error frame. -/
theorem C5_error_frame_near_terminal :
    (∀ items : List StreamItem,
      (framesAfterFirstError (stream_agent_response items) = [] ∨
        framesAfterFirstError (stream_agent_response items) = [Frame.done]) ∧
      (noRaise items = true → containsErrorEvent items = true →
        framesAfterFirstError (stream_agent_response items) = [Frame.done])) ∧
    (∀ (evs : List StreamItem) (m : String) (rest : List StreamItem),
      noRaise evs = true → containsErrorEvent evs = false →
      ∃ fs : List Frame,
        stream_agent_response (evs ++ StreamItem.raised m :: rest) =
          fs ++ [Frame.error m] ∧
        contentFramesOnly fs = true) := by
  constructor
  · intro items
    induction items with
    | nil =>
      constructor
      · left
        rfl
      · intro _ hc
        simp [containsErrorEvent] at hc
    | cons it rest ih =>
      cases it with
      | raised m =>
        constructor
        · left
          rfl
        · intro hr _
          simp [noRaise] at hr
      | ev e =>
        cases e with
        | nonDict =>
          exact ⟨ih.1, fun hr hc => ih.2 (by simpa [noRaise] using hr)
            (by simpa [containsErrorEvent] using hc)⟩
        | other =>
          exact ⟨ih.1, fun hr hc => ih.2 (by simpa [noRaise] using hr)
            (by simpa [containsErrorEvent] using hc)⟩
        | data s =>
          refine ⟨?_, fun hr hc => ?_⟩
          · simpa [stream_agent_response, framesAfterFirstError] using ih.1
          · simpa [stream_agent_response, framesAfterFirstError] using
              ih.2 (by simpa [noRaise] using hr) (by simpa [containsErrorEvent] using hc)
        | toolUse n i =>
          refine ⟨?_, fun hr hc => ?_⟩
          · simpa [stream_agent_response, framesAfterFirstError] using ih.1
          · simpa [stream_agent_response, framesAfterFirstError] using
              ih.2 (by simpa [noRaise] using hr) (by simpa [containsErrorEvent] using hc)
        | error m =>
          constructor
          · right
            rfl
          · intro _ _
            rfl
  · intro evs m rest hr hc
    induction evs with
    | nil => exact ⟨[], rfl, rfl⟩
    | cons it evs ih =>
      cases it with
      | raised k => simp [noRaise] at hr
      | ev e =>
        cases e with
        | nonDict =>
          obtain ⟨fs, hfs, hcf⟩ := ih (by simpa [noRaise] using hr)
            (by simpa [containsErrorEvent] using hc)
          exact ⟨fs, by simpa [stream_agent_response] using hfs, hcf⟩
        | other =>
          obtain ⟨fs, hfs, hcf⟩ := ih (by simpa [noRaise] using hr)
            (by simpa [containsErrorEvent] using hc)
          exact ⟨fs, by simpa [stream_agent_response] using hfs, hcf⟩
        | data s =>
          obtain ⟨fs, hfs, hcf⟩ := ih (by simpa [noRaise] using hr)
            (by simpa [containsErrorEvent] using hc)
          refine ⟨Frame.token s :: fs, ?_, ?_⟩
          · simpa [stream_agent_response] using hfs
          · simpa [contentFramesOnly] using hcf
        | toolUse n i =>
          obtain ⟨fs, hfs, hcf⟩ := ih (by simpa [noRaise] using hr)
            (by simpa [containsErrorEvent] using hc)
          refine ⟨Frame.toolUse n i :: fs, ?_, ?_⟩
          · simpa [stream_agent_response] using hfs
          · simpa [contentFramesOnly] using hcf
        | error k =>
          simp [containsErrorEvent] at hc

/-- Witness for C5 amended: on the event path (one token event, then an error
event) the done frame and nothing else follows the error frame; on the
exception path (one token event, then a raise) the error frame is final and
only content frames precede it. -/
theorem C5_error_frame_near_terminal_witness :
    framesAfterFirstError
        (stream_agent_response
          [StreamItem.ev (StreamEvent.data "hi"),
           StreamItem.ev (StreamEvent.error "boom")]) = [Frame.done] ∧
    (∃ fs : List Frame,
      stream_agent_response
          ([StreamItem.ev (StreamEvent.data "hi")] ++ StreamItem.raised "exn" :: []) =
        fs ++ [Frame.error "exn"] ∧
      contentFramesOnly fs = true) :=
  ⟨(C5_error_frame_near_terminal.1
      [StreamItem.ev (StreamEvent.data "hi"),
       StreamItem.ev (StreamEvent.error "boom")]).2 (by decide) (by decide),
   C5_error_frame_near_terminal.2 [StreamItem.ev (StreamEvent.data "hi")] "exn" []
     (by decide) (by decide)⟩

end AwsCodingAgent
